import Mathlib

/-!
# Verification of the paginated fetch engine of `boardgamegeek/api.py`

Shallow embedding of the resilient, paginated fetch layer of the
BoardGameGeek client (`boardgamegeek/api.py`).  The network transport
`get_parsed_xml_response` is abstracted by a `server` function mapping a
page number to either a parsed page or a transport-level exception; the
domain-object construction (Guild/User/Plays objects) is abstracted to the
collections of items the pagination loops accumulate, which is all the
aggregation logic inspects.  Each client method (`guild`, `user`, `plays`,
`hot_items`, `collection`, `search`, `game`, `get_game_id`) is translated
statement by statement from the source, instrumented with a `Trace`
recording the request descriptors issued and the progress-callback
invocations, so that frame and callback properties can be stated.

The `while` pagination loops are modelled by structurally recursive
functions with a fuel argument; each client method calls its loop with
fuel `count + 1` (resp. `2 * max_items + 1` for `user`), which is proved
sufficient: the loop result is unchanged by any fuel above the
`count - accumulated` threshold (see the fuel-irrelevance lemmas), which
is exactly the termination argument of the source loops.
-/

namespace BGGApi

/-- Transport-level failures of `get_parsed_xml_response`:
`BoardGameGeekAPIRetryError` surviving retry exhaustion, a timeout, a
parse failure of the XML (`BoardGameGeekAPIError`), and a body that is
not XML at all (`BoardGameGeekAPINonXMLError`). -/
inductive TransportError where
  | retryExhausted
  | timeout
  | apiError
  | nonXml
deriving DecidableEq, Repr

/-- Exceptions a client method can raise to its caller: a propagated
transport error, or a `BoardGameGeekError` raised by argument
validation. -/
inductive BggExn where
  | transport (e : TransportError)
  | bggError (msg : String)
deriving DecidableEq, Repr

/-- A query-parameter value (the source passes ints and strings). -/
inductive ParamVal where
  | int (n : Int)
  | str (s : String)
deriving DecidableEq, Repr

/-- A Python dict of query parameters, as an insertion-ordered
association list. -/
abbrev Params := List (String × ParamVal)

/-- Python dict update `d[k] = v`: overwrite in place (keeping the key
position) when the key exists, append otherwise. -/
def setParam (ps : Params) (k : String) (v : ParamVal) : Params :=
  if ps.any (fun kv => kv.1 = k) then
    ps.map (fun kv => if kv.1 = k then (k, v) else kv)
  else ps ++ [(k, v)]

/-- One logical fetch as issued by a call site of
`get_parsed_xml_response`: endpoint URL, query parameters, and the
timeout / retries / retry-delay arguments.  `none` in `retries` or
`retryDelay` records that the call site did not pass that argument (the
transport-side default then applies). -/
structure RequestDescriptor where
  url : String
  params : Params
  timeout : Nat
  retries : Option Nat
  retryDelay : Option Nat
deriving DecidableEq, Repr

/-- The client configuration held by `BoardGameGeekNetworkAPI.__init__`. -/
structure Config where
  api_endpoint : String
  timeout : Nat
  retries : Nat
  retry_delay : Nat
deriving DecidableEq, Repr

def Config.search_api_url (c : Config) : String := c.api_endpoint ++ "/search"

def Config.thing_api_url (c : Config) : String := c.api_endpoint ++ "/thing"

def Config.guild_api_url (c : Config) : String := c.api_endpoint ++ "/guild"

def Config.user_api_url (c : Config) : String := c.api_endpoint ++ "/user"

def Config.plays_api_url (c : Config) : String := c.api_endpoint ++ "/plays"

def Config.hot_api_url (c : Config) : String := c.api_endpoint ++ "/hot"

def Config.collection_api_url (c : Config) : String := c.api_endpoint ++ "/collection"

/-- Observable history of one client-method invocation: the request
descriptors issued, in order, and the `(current, total)` arguments of the
successive progress-callback invocations. -/
structure Trace where
  fetches : List RequestDescriptor
  progress : List (Nat × Nat)
deriving DecidableEq, Repr

def Trace.addFetch (tr : Trace) (d : RequestDescriptor) : Trace :=
  { tr with fetches := tr.fetches ++ [d] }

def Trace.addProgress (tr : Trace) (p : Nat × Nat) : Trace :=
  { tr with progress := tr.progress ++ [p] }

/-- Result of a client method: a returned value, Python `None`
(the "no such resource" outcome), or a raised exception. -/
inductive Outcome (α : Type) where
  | ok (val : α)
  | notFound
  | exn (e : BggExn)
deriving DecidableEq, Repr

/-! ## `BoardGameGeekNetworkAPI.guild` -/

/-- The fields of a parsed `/guild` response page that `guild` reads:
the root `name` attribute, the `count` attribute of the `members`
element, and the member names on the page. -/
structure GuildPage where
  nameAttr : Option String
  membersCount : Nat
  members : List String
deriving DecidableEq, Repr

/-- Abstraction of the transport for the guild endpoint: page number
(1 = the initial request, which carries no `page` parameter) to parsed
page or transport error. -/
abbrev GuildServer := Nat → Except TransportError GuildPage

/-- The first `/guild` request: `params={"id": guild_id, "members": 1}`,
with the instance timeout, retries and retry_delay. -/
def guildDesc1 (c : Config) (guild_id : Int) : RequestDescriptor :=
  { url := c.guild_api_url
    params := [("id", .int guild_id), ("members", .int 1)]
    timeout := c.timeout
    retries := some c.retries
    retryDelay := some c.retry_delay }

/-- A later `/guild` request: the dict is rebuilt with `page` added,
same timeout, retries and retry_delay. -/
def guildDescPage (c : Config) (guild_id : Int) (page : Nat) : RequestDescriptor :=
  { url := c.guild_api_url
    params := [("id", .int guild_id), ("members", .int 1), ("page", .int page)]
    timeout := c.timeout
    retries := some c.retries
    retryDelay := some c.retry_delay }

/-- The `while len(kwargs["members"]) < count` loop of `guild`.  Each
iteration fetches the next page (a transport error propagates — the loop
body is not wrapped in try/except), appends the page members, invokes the
progress callback, and breaks when the page added no member.  Structural
recursion on `fuel`; `guild` supplies fuel `count + 1`, which
`guildLoop_fuel_irrel` shows is beyond the iteration count. -/
def guildLoop (c : Config) (guild_id : Int) (server : GuildServer)
    (count : Nat) : Nat → Nat → List String → Trace → Outcome (List String) × Trace
  | 0, _, members, tr => (.ok members, tr)
  | fuel + 1, page, members, tr =>
    if members.length < count then
      match server page with
      | .error e => (.exn (.transport e), tr.addFetch (guildDescPage c guild_id page))
      | .ok pg =>
        let members2 := members ++ pg.members
        let tr2 := (tr.addFetch (guildDescPage c guild_id page)).addProgress
          (members2.length, count)
        if pg.members.isEmpty then (.ok members2, tr2)
        else guildLoop c guild_id server count fuel (page + 1) members2 tr2
    else (.ok members, tr)

/-- `BoardGameGeekNetworkAPI.guild`: fetch the first page (only a
non-XML body is caught, yielding `None`); bail out with `None` when the
root has no `name` attribute; read the expected member count and the
first page of members; report progress; then run the pagination loop
from page 2. -/
def guild (c : Config) (guild_id : Int) (server : GuildServer) :
    Outcome (List String) × Trace :=
  let tr0 : Trace := { fetches := [guildDesc1 c guild_id], progress := [] }
  match server 1 with
  | .error .nonXml => (.notFound, tr0)
  | .error e => (.exn (.transport e), tr0)
  | .ok pg =>
    match pg.nameAttr with
    | none => (.notFound, tr0)
    | some _ =>
      let count := pg.membersCount
      let tr1 := tr0.addProgress (pg.members.length, count)
      guildLoop c guild_id server count (count + 1) 2 pg.members tr1

/-! ## `BoardGameGeekNetworkAPI.user` -/

/-- The fields of a parsed `/user` response that `user` reads: the root
`name` and (integer-parsed) `id` attributes, and the optional `buddies`
and `guilds` elements, each carrying a `total` attribute and the items
present on the page.  `idParse = none` models a missing `id` attribute
or one `int()` cannot convert. -/
structure UserPage where
  nameAttr : Option String
  idParse : Option Int
  buddiesEl : Option (Nat × List String)
  guildsEl : Option (Nat × List String)
deriving DecidableEq, Repr

/-- `int(buddies.attrib["total"])`, with 0 when the `buddies` element
is absent. -/
def UserPage.totalBuddies (pg : UserPage) : Nat :=
  match pg.buddiesEl with
  | some (t, _) => t
  | none => 0

/-- `int(guilds.attrib["total"])`, with 0 when the `guilds` element is
absent. -/
def UserPage.totalGuilds (pg : UserPage) : Nat :=
  match pg.guildsEl with
  | some (t, _) => t
  | none => 0

/-- The buddies added from the first page: only when the `buddies`
element is present with a positive `total`. -/
def UserPage.firstBuddies (pg : UserPage) : List String :=
  match pg.buddiesEl with
  | some (t, l) => if 0 < t then l else []
  | none => []

/-- The guilds added from the first page: only when the `guilds`
element is present with a positive `total`. -/
def UserPage.firstGuilds (pg : UserPage) : List String :=
  match pg.guildsEl with
  | some (t, l) => if 0 < t then l else []
  | none => []

/-- `root.findall(".//buddy")` on a later page. -/
def UserPage.buddyItems (pg : UserPage) : List String :=
  match pg.buddiesEl with
  | some (_, l) => l
  | none => []

/-- `root.findall(".//guild")` on a later page. -/
def UserPage.guildItems (pg : UserPage) : List String :=
  match pg.guildsEl with
  | some (_, l) => l
  | none => []

abbrev UserServer := Nat → Except TransportError UserPage

/-- The first-page params of `user`. -/
def user_params (name : String) : Params :=
  [("name", .str name), ("buddies", .int 1), ("guilds", .int 1),
   ("hot", .int 1), ("top", .int 1)]

/-- The first `/user` request, passing timeout, retries and retry_delay. -/
def userDesc1 (c : Config) (name : String) : RequestDescriptor :=
  { url := c.user_api_url
    params := user_params name
    timeout := c.timeout
    retries := some c.retries
    retryDelay := some c.retry_delay }

/-- A later `/user` request: the same dict mutated with `params["page"]`,
but the call site passes only `timeout` — no retries / retry_delay
arguments (api.py line 316-319). -/
def userDescPage (c : Config) (name : String) (page : Nat) : RequestDescriptor :=
  { url := c.user_api_url
    params := setParam (user_params name) "page" (.int page)
    timeout := c.timeout
    retries := none
    retryDelay := none }

/-- The `while max(user.total_buddies, user.total_guilds) < max_items_to_fetch`
loop of `user`: fetch (errors propagate — no try/except), append the
page buddies and guilds, invoke the progress callback, and break when
the page added neither a buddy nor a guild. -/
def userLoop (c : Config) (name : String) (server : UserServer)
    (max_items : Nat) :
    Nat → Nat → List String → List String → Trace →
      Outcome (List String × List String) × Trace
  | 0, _, buddies, guilds, tr => (.ok (buddies, guilds), tr)
  | fuel + 1, page, buddies, guilds, tr =>
    if max buddies.length guilds.length < max_items then
      match server page with
      | .error e => (.exn (.transport e), tr.addFetch (userDescPage c name page))
      | .ok pg =>
        let buddies2 := buddies ++ pg.buddyItems
        let guilds2 := guilds ++ pg.guildItems
        let tr2 := (tr.addFetch (userDescPage c name page)).addProgress
          (max buddies2.length guilds2.length, max_items)
        if pg.buddyItems.isEmpty && pg.guildItems.isEmpty then
          (.ok (buddies2, guilds2), tr2)
        else userLoop c name server max_items fuel (page + 1) buddies2 guilds2 tr2
    else (.ok (buddies, guilds), tr)

/-- `BoardGameGeekNetworkAPI.user`: an empty name raises
`BoardGameGeekError`; the first page is fetched catching only the
non-XML error (`None`); missing/unparsable `name` or `id` attributes
yield `None`; the first-page buddies and guilds are added only when the
respective `total` is positive; progress is reported; then the loop runs
from page 2 up to `max(total_buddies, total_guilds)`. -/
def user (c : Config) (name : String) (server : UserServer) :
    Outcome (List String × List String) × Trace :=
  if name = "" then
    (.exn (.bggError "no user name specified"), ⟨[], []⟩)
  else
    let tr0 : Trace := { fetches := [userDesc1 c name], progress := [] }
    match server 1 with
    | .error .nonXml => (.notFound, tr0)
    | .error e => (.exn (.transport e), tr0)
    | .ok pg =>
      match pg.nameAttr, pg.idParse with
      | some _, some _ =>
        let max_items := max pg.totalBuddies pg.totalGuilds
        let tr1 := tr0.addProgress
          (max pg.firstBuddies.length pg.firstGuilds.length, max_items)
        userLoop c name server max_items (2 * max_items + 1) 2
          pg.firstBuddies pg.firstGuilds tr1
      | _, _ => (.notFound, tr0)

/-! ## `BoardGameGeekNetworkAPI.plays` -/

/-- A caller-supplied `min_date` / `max_date` argument, classified by
the two observations the source makes of it: Python truthiness
(`if min_date:`) and whether `.isoformat()` exists (date objects). -/
inductive PyDate where
  | pyNone
  | date (iso : String)
  | truthyNonDate
  | falsyNonDate
deriving DecidableEq, Repr

def PyDate.truthy : PyDate → Bool
  | .pyNone => false
  | .date _ => true
  | .truthyNonDate => true
  | .falsyNonDate => false

/-- `.isoformat()`: succeeds only on date objects; `none` models the
`AttributeError` the source turns into a `BoardGameGeekError`. -/
def PyDate.isoformat : PyDate → Option String
  | .date s => some s
  | _ => none

/-- A caller-supplied `game_id`: an int-convertible value or junk that
makes `int(game_id)` raise. -/
inductive PyGameId where
  | gid (n : Int)
  | junk
deriving DecidableEq, Repr

def PyGameId.truthy : PyGameId → Bool
  | .gid n => n != 0
  | .junk => true

def PyGameId.toInt : PyGameId → Option Int
  | .gid n => some n
  | .junk => none

/-- Python truthiness of an optional string (`not name`). -/
def strTruthy : Option String → Bool
  | none => false
  | some s => s != ""

/-- Python truthiness of an optional `game_id` (`not game_id`). -/
def gidTruthy : Option PyGameId → Bool
  | none => false
  | some g => g.truthy

/-- The fields of a parsed `/plays` response that the pagination logic
reads: the root `total` attribute (absent on error responses) and the
`<play>` items, abstracted to opaque labels. -/
structure PlaysPage where
  total : Option Nat
  plays : List String
deriving DecidableEq, Repr

abbrev PlaysServer := Nat → Except TransportError PlaysPage

/-- A `/plays` request with the given params, passing timeout, retries
and retry_delay (both the first and the later-page call sites do). -/
def playsDesc (c : Config) (ps : Params) : RequestDescriptor :=
  { url := c.plays_api_url
    params := ps
    timeout := c.timeout
    retries := some c.retries
    retryDelay := some c.retry_delay }

/-- The argument validation and params construction of `plays`, after
the name/game_id exclusivity checks: the `username` or `id` key
(`int(game_id)` failing raises "invalid game id"), then `mindate` and
`maxdate`, each validated only when truthy. -/
def playsParams (name : Option String) (game_id : Option PyGameId)
    (min_date max_date : PyDate) : Except BggExn Params :=
  let base : Except BggExn Params :=
    if strTruthy name then .ok [("username", .str (name.getD ""))]
    else
      match game_id.bind PyGameId.toInt with
      | some n => .ok [("id", .int n)]
      | none => .error (.bggError "invalid game id")
  match base with
  | .error e => .error e
  | .ok ps0 =>
    let withMin : Except BggExn Params :=
      if min_date.truthy then
        match min_date.isoformat with
        | some s => .ok (setParam ps0 "mindate" (.str s))
        | none => .error (.bggError "mindate must be a datetime.date object")
      else .ok ps0
    match withMin with
    | .error e => .error e
    | .ok ps1 =>
      if max_date.truthy then
        match max_date.isoformat with
        | some s => .ok (setParam ps1 "maxdate" (.str s))
        | none => .error (.bggError "maxdate must be a datetime.date object")
      else .ok ps1

/-- The `while len(plays) < count` loop of `plays`: fetch the next page
(errors propagate — no try/except), append the page plays; when the page
added no play, break immediately — before the progress callback;
otherwise increment the page, invoke the progress callback, continue. -/
def playsLoop (c : Config) (base : Params) (server : PlaysServer)
    (count : Nat) : Nat → Nat → List String → Trace → Outcome (List String) × Trace
  | 0, _, items, tr => (.ok items, tr)
  | fuel + 1, page, items, tr =>
    if items.length < count then
      let d := playsDesc c (setParam base "page" (.int page))
      match server page with
      | .error e => (.exn (.transport e), tr.addFetch d)
      | .ok pg =>
        let items2 := items ++ pg.plays
        if pg.plays.isEmpty then (.ok items2, tr.addFetch d)
        else
          playsLoop c base server count fuel (page + 1) items2
            ((tr.addFetch d).addProgress (items2.length, count))
    else (.ok items, tr)

/-- `BoardGameGeekNetworkAPI.plays`: neither-or-both of name/game_id
raise `BoardGameGeekError`; the params are built and validated
(`playsParams`); the first page is fetched catching only the non-XML
error (`None`); a missing root `total` attribute yields `None`; the
first page of plays is added and progress reported; then the loop runs
from page 2. -/
def plays (c : Config) (name : Option String) (game_id : Option PyGameId)
    (min_date max_date : PyDate) (server : PlaysServer) :
    Outcome (List String) × Trace :=
  if ¬ strTruthy name ∧ ¬ gidTruthy game_id then
    (.exn (.bggError "no user name specified"), ⟨[], []⟩)
  else if strTruthy name ∧ gidTruthy game_id then
    (.exn (.bggError "cannot retrieve by user and by game at the same time"), ⟨[], []⟩)
  else
    match playsParams name game_id min_date max_date with
    | .error e => (.exn e, ⟨[], []⟩)
    | .ok ps =>
      let tr0 : Trace := { fetches := [playsDesc c ps], progress := [] }
      match server 1 with
      | .error .nonXml => (.notFound, tr0)
      | .error e => (.exn (.transport e), tr0)
      | .ok pg =>
        match pg.total with
        | none => (.notFound, tr0)
        | some count =>
          let items0 := pg.plays
          let tr1 := tr0.addProgress (items0.length, count)
          playsLoop c ps server count (count + 1) 2 items0 tr1

/-! ## `hot_items`, `collection`, `search`, `get_game_id`, `game` -/

def HOT_ITEM_CHOICES : List String :=
  ["boardgame", "rpg", "videogame", "boardgameperson", "rpgperson",
   "boardgamecompany", "rpgcompany", "videogamecompany"]

structure HotPage where
  items : List String
deriving DecidableEq, Repr

def hotDesc (c : Config) (item_type : String) : RequestDescriptor :=
  { url := c.hot_api_url
    params := [("type", .str item_type)]
    timeout := c.timeout
    retries := some c.retries
    retryDelay := some c.retry_delay }

/-- `BoardGameGeekNetworkAPI.hot_items`: an unrecognized type raises
`BoardGameGeekError` before any request; a non-XML body yields `None`;
other transport errors propagate. -/
def hot_items (c : Config) (item_type : String)
    (server : Nat → Except TransportError HotPage) :
    Outcome (List String) × Trace :=
  if item_type ∉ HOT_ITEM_CHOICES then
    (.exn (.bggError "invalid type specified"), ⟨[], []⟩)
  else
    let tr0 : Trace := { fetches := [hotDesc c item_type], progress := [] }
    match server 1 with
    | .error .nonXml => (.notFound, tr0)
    | .error e => (.exn (.transport e), tr0)
    | .ok pg => (.ok pg.items, tr0)

/-- The fields of a parsed `/collection` response the method reads: an
optional `error` element (invalid username) and the board-game items. -/
structure CollectionPage where
  errorEl : Option String
  items : List String
deriving DecidableEq, Repr

def collectionDesc (c : Config) (user_name : String) : RequestDescriptor :=
  { url := c.collection_api_url
    params := [("username", .str user_name), ("stats", .int 1)]
    timeout := c.timeout
    retries := some c.retries
    retryDelay := some c.retry_delay }

/-- `BoardGameGeekNetworkAPI.collection` (without extra kwargs): an
empty user name raises; a non-XML body yields `None`; an `error` element
in the response yields `None`; otherwise the items are returned. -/
def collection (c : Config) (user_name : String)
    (server : Nat → Except TransportError CollectionPage) :
    Outcome (List String) × Trace :=
  if user_name = "" then
    (.exn (.bggError "no user name specified"), ⟨[], []⟩)
  else
    let tr0 : Trace := { fetches := [collectionDesc c user_name], progress := [] }
    match server 1 with
    | .error .nonXml => (.notFound, tr0)
    | .error e => (.exn (.transport e), tr0)
    | .ok pg =>
      if pg.errorEl.isSome then (.notFound, tr0) else (.ok pg.items, tr0)

def VALID_SEARCH_TYPES : List String :=
  ["rpgitem", "videogame", "boardgame", "boardgameexpansion"]

/-- One `<item>` of a `/search` response: its id and (optional) year. -/
structure SearchItem where
  id : Int
  year : Option Int
deriving DecidableEq, Repr

structure SearchPage where
  items : List SearchItem
deriving DecidableEq, Repr

abbrev SearchServer := Nat → Except TransportError SearchPage

/-- The `/search` request params for the list calling convention:
`query`, a comma-joined `type` when the list is nonempty, and `exact`. -/
def searchParams (query : String) (search_type : List String) (exact : Bool) : Params :=
  let ps0 : Params := [("query", .str query)]
  let ps1 := if search_type.isEmpty then ps0
    else ps0 ++ [("type", .str (String.intercalate "," search_type))]
  if exact then ps1 ++ [("exact", .int 1)] else ps1

def searchDesc (c : Config) (query : String) (search_type : List String)
    (exact : Bool) : RequestDescriptor :=
  { url := c.search_api_url
    params := searchParams query search_type exact
    timeout := c.timeout
    retries := some c.retries
    retryDelay := some c.retry_delay }

/-- `BoardGameGeekNetworkAPI.search` (list calling convention for
`search_type`): an empty query raises; an unrecognized search type
raises; a non-XML body yields `None`; other transport errors propagate;
otherwise the result items are returned. -/
def search (c : Config) (query : String) (search_type : List String)
    (exact : Bool) (server : SearchServer) :
    Outcome (List SearchItem) × Trace :=
  if query = "" then
    (.exn (.bggError "invalid query string"), ⟨[], []⟩)
  else if ∃ s ∈ search_type, s ∉ VALID_SEARCH_TYPES then
    (.exn (.bggError "invalid search type"), ⟨[], []⟩)
  else
    let tr0 : Trace := { fetches := [searchDesc c query search_type exact], progress := [] }
    match server 1 with
    | .error .nonXml => (.notFound, tr0)
    | .error e => (.exn (.transport e), tr0)
    | .ok pg => (.ok pg.items, tr0)

/-- The `/thing` request of `game`: `params={"id": game_id, "stats": 1}`. -/
def thingDesc (c : Config) (game_id : Int) : RequestDescriptor :=
  { url := c.thing_api_url
    params := [("id", .int game_id), ("stats", .int 1)]
    timeout := c.timeout
    retries := some c.retries
    retryDelay := some c.retry_delay }

/-- `max(res, key=...)`: Python returns the first element attaining the
maximum key. -/
def pyMaxBy (key : SearchItem → Int) (r : SearchItem) (rs : List SearchItem) : SearchItem :=
  rs.foldl (fun best x => if key x > key best then x else best) r

/-- `min(game_data, key=...)`: first element attaining the minimum key. -/
def pyMinBy (key : SearchItem → Int) (r : SearchItem) (rs : List SearchItem) : SearchItem :=
  rs.foldl (fun best x => if key x < key best then x else best) r

/-- The `year` sort key of the "recent" choice (`None` → -300000). -/
def yearKey (x : SearchItem) : Int := x.year.getD (-300000)

/-- The `boardgame_rank` sort key of the "best-rank" choice
(`None` → 10000000000), over an oracle `ranks` abstracting the excluded
domain-object layer (each rank is obtained through a full `game` fetch). -/
def rankKey (ranks : Int → Option Int) (x : SearchItem) : Int :=
  (ranks x.id).getD 10000000000

/-- `BoardGameGeekNetworkAPI._get_game_id` (public facade
`get_game_id`): an unrecognized `choose` raises `BoardGameGeekError`
before any request; then an exact search is issued; a falsy search
result (`None` or `[]`) returns `None`; "first" picks the first result,
"recent" the newest, and "best-rank" fetches every matched game
(one `/thing` request each) and picks the best-ranked one. -/
def get_game_id (c : Config) (name : String) (game_type : String)
    (choose : String) (server : SearchServer) (ranks : Int → Option Int) :
    Outcome Int × Trace :=
  if choose ∉ ["first", "recent", "best-rank"] then
    (.exn (.bggError ("invalid value for parameter choose: " ++ choose)), ⟨[], []⟩)
  else
    match search c name [game_type] true server with
    | (.exn e, tr) => (.exn e, tr)
    | (.notFound, tr) => (.notFound, tr)
    | (.ok [], tr) => (.notFound, tr)
    | (.ok (r :: rs), tr) =>
      if choose = "first" then (.ok r.id, tr)
      else if choose = "recent" then (.ok (pyMaxBy yearKey r rs).id, tr)
      else
        let tr2 : Trace :=
          { tr with fetches := tr.fetches ++ (r :: rs).map (fun x => thingDesc c x.id) }
        (.ok (pyMinBy (rankKey ranks) r rs).id, tr2)

/-- The parts of a parsed `/thing` response that decide `game`'s
control flow: the optional root `item` element and its `type`
attribute. -/
structure GameItem where
  typeAttr : String
deriving DecidableEq, Repr

structure GamePage where
  item : Option GameItem
deriving DecidableEq, Repr

/-- `BoardGameGeek.game` with an explicit `game_id`: a non-XML body
yields `None`; a well-formed response without an `item` root raises
`BoardGameGeekAPIError`; a non-boardgame type raises
`BoardGameGeekError`; otherwise the item is returned. -/
def game (c : Config) (game_id : Int)
    (server : Nat → Except TransportError GamePage) :
    Outcome GameItem × Trace :=
  let tr0 : Trace := { fetches := [thingDesc c game_id], progress := [] }
  match server 1 with
  | .error .nonXml => (.notFound, tr0)
  | .error e => (.exn (.transport e), tr0)
  | .ok pg =>
    match pg.item with
    | none => (.exn (.transport .apiError), tr0)
    | some it =>
      if it.typeAttr ∉ ["boardgame", "boardgameexpansion"] then
        (.exn (.bggError "item is not a board game"), tr0)
      else (.ok it, tr0)

/-! ## Helper lemmas about the pagination loops -/

/-- The first component of successive progress-callback invocations,
viewed as a chain: each call's `current` is at most the next one's. -/
def monoFst (l : List (Nat × Nat)) : Prop :=
  l.Chain' (fun a b => a.1 ≤ b.1)

theorem monoFst_snoc {l : List (Nat × Nat)} {a : Nat × Nat}
    (h : monoFst l) (h2 : ∀ x ∈ l.getLast?, x.1 ≤ a.1) : monoFst (l ++ [a]) := by
  rw [monoFst, List.chain'_append]
  refine ⟨h, List.chain'_singleton a, fun x hx y hy => ?_⟩
  simp only [List.head?_cons, Option.mem_def, Option.some.injEq] at hy
  subst hy
  exact h2 x hx

theorem guildLoop_fetch_bound (c : Config) (guild_id : Int) (server : GuildServer)
    (count : Nat) :
    ∀ fuel page members tr,
      (guildLoop c guild_id server count fuel page members tr).2.fetches.length ≤
        tr.fetches.length + (count - members.length) := by
  intro fuel
  induction fuel with
  | zero => intro page members tr; simp [guildLoop]
  | succ fuel ih =>
    intro page members tr
    simp only [guildLoop]
    split
    · rename_i hlt
      split
      · simp only [Trace.addFetch, List.length_append, List.length_cons,
          List.length_nil]
        omega
      · rename_i pg hpg
        split
        · simp only [Trace.addProgress, Trace.addFetch, List.length_append,
            List.length_cons, List.length_nil]
          omega
        · rename_i hemp
          refine le_trans (ih _ _ _) ?_
          have hpos : 0 < pg.members.length := by
            cases hm : pg.members with
            | nil => rw [hm] at hemp; simp at hemp
            | cons a l => simp [hm]
          simp only [Trace.addProgress, Trace.addFetch, List.length_append,
            List.length_cons, List.length_nil]
          omega
    · simp

theorem playsLoop_fetch_bound (c : Config) (base : Params) (server : PlaysServer)
    (count : Nat) :
    ∀ fuel page items tr,
      (playsLoop c base server count fuel page items tr).2.fetches.length ≤
        tr.fetches.length + (count - items.length) := by
  intro fuel
  induction fuel with
  | zero => intro page items tr; simp [playsLoop]
  | succ fuel ih =>
    intro page items tr
    simp only [playsLoop]
    split
    · rename_i hlt
      split
      · simp only [Trace.addFetch, List.length_append, List.length_cons,
          List.length_nil]
        omega
      · rename_i pg hpg
        split
        · simp only [Trace.addFetch, List.length_append, List.length_cons,
            List.length_nil]
          omega
        · rename_i hemp
          refine le_trans (ih _ _ _) ?_
          have hpos : 0 < pg.plays.length := by
            cases hm : pg.plays with
            | nil => rw [hm] at hemp; simp at hemp
            | cons a l => simp [hm]
          simp only [Trace.addProgress, Trace.addFetch, List.length_append,
            List.length_cons, List.length_nil]
          omega
    · simp

theorem guildLoop_fuel_irrel (c : Config) (guild_id : Int) (server : GuildServer)
    (count : Nat) :
    ∀ f g page members tr, count - members.length < f → count - members.length < g →
      guildLoop c guild_id server count f page members tr =
        guildLoop c guild_id server count g page members tr := by
  intro f
  induction f with
  | zero => intro g page members tr hf; exact absurd hf (Nat.not_lt_zero _)
  | succ f ih =>
    intro g page members tr hf hg
    cases g with
    | zero => exact absurd hg (Nat.not_lt_zero _)
    | succ g =>
      simp only [guildLoop]
      split
      · rename_i hlt
        split
        · rfl
        · rename_i pg hpg
          split
          · rfl
          · rename_i hemp
            have hpos : 0 < pg.members.length := by
              cases hm : pg.members with
              | nil => rw [hm] at hemp; simp at hemp
              | cons a l => simp [hm]
            apply ih
            · simp only [List.length_append]; omega
            · simp only [List.length_append]; omega
      · rfl

theorem playsLoop_fuel_irrel (c : Config) (base : Params) (server : PlaysServer)
    (count : Nat) :
    ∀ f g page items tr, count - items.length < f → count - items.length < g →
      playsLoop c base server count f page items tr =
        playsLoop c base server count g page items tr := by
  intro f
  induction f with
  | zero => intro g page items tr hf; exact absurd hf (Nat.not_lt_zero _)
  | succ f ih =>
    intro g page items tr hf hg
    cases g with
    | zero => exact absurd hg (Nat.not_lt_zero _)
    | succ g =>
      simp only [playsLoop]
      split
      · rename_i hlt
        split
        · rfl
        · rename_i pg hpg
          split
          · rfl
          · rename_i hemp
            have hpos : 0 < pg.plays.length := by
              cases hm : pg.plays with
              | nil => rw [hm] at hemp; simp at hemp
              | cons a l => simp [hm]
            apply ih
            · simp only [List.length_append]; omega
            · simp only [List.length_append]; omega
      · rfl

theorem guildLoop_mono (c : Config) (guild_id : Int) (server : GuildServer)
    (count : Nat) :
    ∀ fuel page members tr, monoFst tr.progress →
      (∀ x ∈ tr.progress.getLast?, x.1 ≤ members.length) →
      monoFst (guildLoop c guild_id server count fuel page members tr).2.progress := by
  intro fuel
  induction fuel with
  | zero => intro page members tr h _; simpa [guildLoop] using h
  | succ fuel ih =>
    intro page members tr h hlast
    simp only [guildLoop]
    split
    · rename_i hlt
      split
      · simpa [Trace.addFetch] using h
      · rename_i pg hpg
        have h2 : monoFst (tr.progress ++ [((members ++ pg.members).length, count)]) := by
          refine monoFst_snoc h fun x hx => ?_
          refine le_trans (hlast x hx) ?_
          simp [List.length_append]
        have hlast2 : ∀ x ∈ (tr.progress ++
            [((members ++ pg.members).length, count)]).getLast?,
            x.1 ≤ (members ++ pg.members).length := by
          intro x hx
          rw [List.getLast?_concat] at hx
          simp only [Option.mem_def, Option.some.injEq] at hx
          subst hx
          rfl
        split
        · exact h2
        · exact ih _ _ _ h2 hlast2
    · exact h

theorem userLoop_mono (c : Config) (name : String) (server : UserServer)
    (max_items : Nat) :
    ∀ fuel page buddies guilds tr, monoFst tr.progress →
      (∀ x ∈ tr.progress.getLast?, x.1 ≤ max buddies.length guilds.length) →
      monoFst (userLoop c name server max_items fuel page buddies guilds tr).2.progress := by
  intro fuel
  induction fuel with
  | zero => intro page buddies guilds tr h _; simpa [userLoop] using h
  | succ fuel ih =>
    intro page buddies guilds tr h hlast
    simp only [userLoop]
    split
    · rename_i hlt
      split
      · simpa [Trace.addFetch] using h
      · rename_i pg hpg
        have hgrow : max buddies.length guilds.length ≤
            max (buddies ++ pg.buddyItems).length (guilds ++ pg.guildItems).length := by
          simp only [List.length_append]
          omega
        have h2 : monoFst (tr.progress ++
            [(max (buddies ++ pg.buddyItems).length (guilds ++ pg.guildItems).length,
              max_items)]) := by
          refine monoFst_snoc h fun x hx => le_trans (hlast x hx) hgrow
        have hlast2 : ∀ x ∈ (tr.progress ++
            [(max (buddies ++ pg.buddyItems).length (guilds ++ pg.guildItems).length,
              max_items)]).getLast?,
            x.1 ≤ max (buddies ++ pg.buddyItems).length (guilds ++ pg.guildItems).length := by
          intro x hx
          rw [List.getLast?_concat] at hx
          simp only [Option.mem_def, Option.some.injEq] at hx
          subst hx
          rfl
        split
        · exact h2
        · exact ih _ _ _ _ h2 hlast2
    · exact h

theorem playsLoop_mono (c : Config) (base : Params) (server : PlaysServer)
    (count : Nat) :
    ∀ fuel page items tr, monoFst tr.progress →
      (∀ x ∈ tr.progress.getLast?, x.1 ≤ items.length) →
      monoFst (playsLoop c base server count fuel page items tr).2.progress := by
  intro fuel
  induction fuel with
  | zero => intro page items tr h _; simpa [playsLoop] using h
  | succ fuel ih =>
    intro page items tr h hlast
    simp only [playsLoop]
    split
    · rename_i hlt
      split
      · simpa [Trace.addFetch] using h
      · rename_i pg hpg
        split
        · simpa [Trace.addFetch] using h
        · refine ih _ _ _ ?_ ?_
          · refine monoFst_snoc h fun x hx => ?_
            refine le_trans (hlast x hx) ?_
            simp [List.length_append]
          · intro x hx
            simp only [Trace.addProgress, Trace.addFetch] at hx
            rw [List.getLast?_concat] at hx
            simp only [Option.mem_def, Option.some.injEq] at hx
            subst hx
            rfl
    · exact h

theorem guildLoop_progress_count (c : Config) (guild_id : Int) (server : GuildServer)
    (count : Nat) (hok : ∀ p, ∃ pg, server p = .ok pg) :
    ∀ fuel page members tr,
      (guildLoop c guild_id server count fuel page members tr).2.progress.length +
          tr.fetches.length =
        (guildLoop c guild_id server count fuel page members tr).2.fetches.length +
          tr.progress.length := by
  intro fuel
  induction fuel with
  | zero => intro page members tr; simp only [guildLoop]; omega
  | succ fuel ih =>
    intro page members tr
    simp only [guildLoop]
    split
    · rename_i hlt
      split
      · rename_i e he
        obtain ⟨pg, hpg⟩ := hok page
        rw [hpg] at he
        exact absurd he (by simp)
      · rename_i pg hpg
        split
        · simp only [Trace.addProgress, Trace.addFetch, List.length_append,
            List.length_cons, List.length_nil]
          omega
        · have := ih (page + 1) (members ++ pg.members)
            ((tr.addFetch (guildDescPage c guild_id page)).addProgress
              ((members ++ pg.members).length, count))
          simp only [Trace.addProgress, Trace.addFetch, List.length_append,
            List.length_cons, List.length_nil] at this ⊢
          omega
    ·
      show tr.progress.length + tr.fetches.length =
        tr.fetches.length + tr.progress.length
      omega

theorem userLoop_progress_count (c : Config) (name : String) (server : UserServer)
    (max_items : Nat) (hok : ∀ p, ∃ pg, server p = .ok pg) :
    ∀ fuel page buddies guilds tr,
      (userLoop c name server max_items fuel page buddies guilds tr).2.progress.length +
          tr.fetches.length =
        (userLoop c name server max_items fuel page buddies guilds tr).2.fetches.length +
          tr.progress.length := by
  intro fuel
  induction fuel with
  | zero => intro page buddies guilds tr; simp only [userLoop]; omega
  | succ fuel ih =>
    intro page buddies guilds tr
    simp only [userLoop]
    split
    · rename_i hlt
      split
      · rename_i e he
        obtain ⟨pg, hpg⟩ := hok page
        rw [hpg] at he
        exact absurd he (by simp)
      · rename_i pg hpg
        split
        · simp only [Trace.addProgress, Trace.addFetch, List.length_append,
            List.length_cons, List.length_nil]
          omega
        · have := ih (page + 1) (buddies ++ pg.buddyItems) (guilds ++ pg.guildItems)
            ((tr.addFetch (userDescPage c name page)).addProgress
              (max (buddies ++ pg.buddyItems).length (guilds ++ pg.guildItems).length,
                max_items))
          simp only [Trace.addProgress, Trace.addFetch, List.length_append,
            List.length_cons, List.length_nil] at this ⊢
          omega
    ·
      show tr.progress.length + tr.fetches.length =
        tr.fetches.length + tr.progress.length
      omega

/-- In the `plays` loop every page fetch is followed by exactly one
progress-callback invocation, except possibly the last fetch (the page
contributing zero new plays, after which the loop breaks without
invoking the callback). -/
theorem playsLoop_progress_count (c : Config) (base : Params) (server : PlaysServer)
    (count : Nat) (hok : ∀ p, ∃ pg, server p = .ok pg) :
    ∀ fuel page items tr,
      (playsLoop c base server count fuel page items tr).2.progress.length +
          tr.fetches.length ≤
        (playsLoop c base server count fuel page items tr).2.fetches.length +
          tr.progress.length ∧
      (playsLoop c base server count fuel page items tr).2.fetches.length +
          tr.progress.length ≤
        (playsLoop c base server count fuel page items tr).2.progress.length +
          tr.fetches.length + 1 := by
  intro fuel
  induction fuel with
  | zero => intro page items tr; simp only [playsLoop]; omega
  | succ fuel ih =>
    intro page items tr
    simp only [playsLoop]
    split
    · rename_i hlt
      split
      · rename_i e he
        obtain ⟨pg, hpg⟩ := hok page
        rw [hpg] at he
        exact absurd he (by simp)
      · rename_i pg hpg
        split
        · simp only [Trace.addFetch, List.length_append, List.length_cons,
            List.length_nil]
          omega
        · have := ih (page + 1) (items ++ pg.plays)
            ((tr.addFetch (playsDesc c (setParam base "page" (.int page)))).addProgress
              ((items ++ pg.plays).length, count))
          simp only [Trace.addProgress, Trace.addFetch, List.length_append,
            List.length_cons, List.length_nil] at this ⊢
          omega
    ·
      show tr.progress.length + tr.fetches.length ≤
          tr.fetches.length + tr.progress.length ∧
        tr.fetches.length + tr.progress.length ≤
          tr.progress.length + tr.fetches.length + 1
      omega

theorem guildLoop_fetch_mem (c : Config) (guild_id : Int) (server : GuildServer)
    (count : Nat) :
    ∀ fuel page members tr d,
      d ∈ (guildLoop c guild_id server count fuel page members tr).2.fetches →
      d ∈ tr.fetches ∨ ∃ p, page ≤ p ∧ d = guildDescPage c guild_id p := by
  intro fuel
  induction fuel with
  | zero => intro page members tr d hd; simp only [guildLoop] at hd; exact .inl hd
  | succ fuel ih =>
    intro page members tr d hd
    simp only [guildLoop] at hd
    split at hd
    · rename_i hlt
      split at hd
      · simp only [Trace.addFetch, List.mem_append, List.mem_singleton] at hd
        rcases hd with h | h
        · exact .inl h
        · exact .inr ⟨page, le_refl _, h⟩
      · rename_i pg hpg
        split at hd
        · simp only [Trace.addProgress, Trace.addFetch, List.mem_append,
            List.mem_singleton] at hd
          rcases hd with h | h
          · exact .inl h
          · exact .inr ⟨page, le_refl _, h⟩
        · rcases ih _ _ _ _ hd with h | ⟨p, hp, hdp⟩
          · simp only [Trace.addProgress, Trace.addFetch, List.mem_append,
              List.mem_singleton] at h
            rcases h with h | h
            · exact .inl h
            · exact .inr ⟨page, le_refl _, h⟩
          · exact .inr ⟨p, by omega, hdp⟩
    · exact .inl hd

theorem userLoop_fetch_mem (c : Config) (name : String) (server : UserServer)
    (max_items : Nat) :
    ∀ fuel page buddies guilds tr d,
      d ∈ (userLoop c name server max_items fuel page buddies guilds tr).2.fetches →
      d ∈ tr.fetches ∨ ∃ p, page ≤ p ∧ d = userDescPage c name p := by
  intro fuel
  induction fuel with
  | zero => intro page buddies guilds tr d hd; simp only [userLoop] at hd; exact .inl hd
  | succ fuel ih =>
    intro page buddies guilds tr d hd
    simp only [userLoop] at hd
    split at hd
    · rename_i hlt
      split at hd
      · simp only [Trace.addFetch, List.mem_append, List.mem_singleton] at hd
        rcases hd with h | h
        · exact .inl h
        · exact .inr ⟨page, le_refl _, h⟩
      · rename_i pg hpg
        split at hd
        · simp only [Trace.addProgress, Trace.addFetch, List.mem_append,
            List.mem_singleton] at hd
          rcases hd with h | h
          · exact .inl h
          · exact .inr ⟨page, le_refl _, h⟩
        · rcases ih _ _ _ _ _ hd with h | ⟨p, hp, hdp⟩
          · simp only [Trace.addProgress, Trace.addFetch, List.mem_append,
              List.mem_singleton] at h
            rcases h with h | h
            · exact .inl h
            · exact .inr ⟨page, le_refl _, h⟩
          · exact .inr ⟨p, by omega, hdp⟩
    · exact .inl hd

theorem playsLoop_fetch_mem (c : Config) (base : Params) (server : PlaysServer)
    (count : Nat) :
    ∀ fuel page items tr d,
      d ∈ (playsLoop c base server count fuel page items tr).2.fetches →
      d ∈ tr.fetches ∨
        ∃ p, page ≤ p ∧ d = playsDesc c (setParam base "page" (.int p)) := by
  intro fuel
  induction fuel with
  | zero => intro page items tr d hd; simp only [playsLoop] at hd; exact .inl hd
  | succ fuel ih =>
    intro page items tr d hd
    simp only [playsLoop] at hd
    split at hd
    · rename_i hlt
      split at hd
      · simp only [Trace.addFetch, List.mem_append, List.mem_singleton] at hd
        rcases hd with h | h
        · exact .inl h
        · exact .inr ⟨page, le_refl _, h⟩
      · rename_i pg hpg
        split at hd
        · simp only [Trace.addFetch, List.mem_append, List.mem_singleton] at hd
          rcases hd with h | h
          · exact .inl h
          · exact .inr ⟨page, le_refl _, h⟩
        · rcases ih _ _ _ _ hd with h | ⟨p, hp, hdp⟩
          · simp only [Trace.addProgress, Trace.addFetch, List.mem_append,
              List.mem_singleton] at h
            rcases h with h | h
            · exact .inl h
            · exact .inr ⟨page, le_refl _, h⟩
          · exact .inr ⟨p, by omega, hdp⟩
    · exact .inl hd

/-! ## Concrete fixtures for witnesses and counterexamples -/

/-- The default facade configuration of `BoardGameGeek.__init__`:
timeout 15, retries 3, retry_delay 5. -/
def cfg0 : Config := ⟨"https://www.boardgamegeek.com/xmlapi2", 15, 3, 5⟩

/-- Guild server: page 1 delivers one member of an expected three,
page 2 times out after retries. -/
def guildSrvErr : GuildServer := fun p =>
  if p = 1 then .ok ⟨some "g", 3, ["a"]⟩ else .error .timeout

/-- Guild server whose pages carry no members. -/
def guildSrvZero : GuildServer := fun _ => .ok ⟨some "g", 5, []⟩

/-! ## Claim C1 -/

/-- C1 (amended): transport errors are propagated from *every* page,
not only the first — the pagination loops are not wrapped in
try/except, so an error on a later page raises to the caller and the
items accumulated so far are discarded; the only downgraded failure is
a first-page non-XML body, which yields the `None` ("not found")
outcome.  Stated for the guild, user and plays aggregations: the
first-page behaviour, and the loop behaviour for pages after the
first. -/
theorem C1_transport_errors_propagate :
    (∀ (c : Config) (guild_id : Int) (server : GuildServer) (e : TransportError),
      server 1 = .error e →
      (guild c guild_id server).1 =
        (if e = .nonXml then .notFound else .exn (.transport e))) ∧
    (∀ (c : Config) (guild_id : Int) (server : GuildServer)
      (count fuel page : Nat) (members : List String) (tr : Trace) (e : TransportError),
      members.length < count → server page = .error e →
      guildLoop c guild_id server count (fuel + 1) page members tr =
        (.exn (.transport e), tr.addFetch (guildDescPage c guild_id page))) ∧
    (∀ (c : Config) (name : String) (server : UserServer) (e : TransportError),
      name ≠ "" → server 1 = .error e →
      (user c name server).1 =
        (if e = .nonXml then .notFound else .exn (.transport e))) ∧
    (∀ (c : Config) (name : String) (server : UserServer)
      (max_items fuel page : Nat) (buddies guilds : List String) (tr : Trace)
      (e : TransportError),
      max buddies.length guilds.length < max_items → server page = .error e →
      userLoop c name server max_items (fuel + 1) page buddies guilds tr =
        (.exn (.transport e), tr.addFetch (userDescPage c name page))) ∧
    (∀ (c : Config) (name : Option String) (game_id : Option PyGameId)
      (mnd mxd : PyDate) (server : PlaysServer) (ps : Params) (e : TransportError),
      strTruthy name = true → gidTruthy game_id = false →
      playsParams name game_id mnd mxd = .ok ps → server 1 = .error e →
      (plays c name game_id mnd mxd server).1 =
        (if e = .nonXml then .notFound else .exn (.transport e))) ∧
    (∀ (c : Config) (base : Params) (server : PlaysServer)
      (count fuel page : Nat) (items : List String) (tr : Trace) (e : TransportError),
      items.length < count → server page = .error e →
      playsLoop c base server count (fuel + 1) page items tr =
        (.exn (.transport e),
          tr.addFetch (playsDesc c (setParam base "page" (.int page))))) := by
  refine ⟨?_, ?_, ?_, ?_, ?_, ?_⟩
  · intro c guild_id server e h
    cases e <;> simp [guild, h]
  · intro c guild_id server count fuel page members tr e hlt h
    simp only [guildLoop]
    rw [if_pos hlt, h]
  · intro c name server e hname h
    cases e <;> simp [user, hname, h]
  · intro c name server max_items fuel page buddies guilds tr e hlt h
    simp only [userLoop]
    rw [if_pos hlt, h]
  · intro c name game_id mnd mxd server ps e hn hg hps h
    cases e <;> simp [plays, hn, hg, hps, h]
  · intro c base server count fuel page items tr e hlt h
    simp only [playsLoop]
    rw [if_pos hlt, h]

/-- C1 witness: a later-page timeout in a concrete guild aggregation. -/
theorem C1_witness :
    (["a"].length < 3) ∧ guildSrvErr 2 = .error .timeout ∧
      guildLoop cfg0 7 guildSrvErr 3 3 2 ["a"] ⟨[], []⟩ =
        (.exn (.transport .timeout),
          Trace.addFetch ⟨[], []⟩ (guildDescPage cfg0 7 2)) :=
  ⟨by decide, rfl,
    C1_transport_errors_propagate.2.1 cfg0 7 guildSrvErr 3 2 2 ["a"] ⟨[], []⟩
      .timeout (by decide) rfl⟩

/-- C1 counterexample: page 1 of the guild aggregation succeeds with one
accumulated member, page 2 fails with a timeout — the claim says the
aggregation returns the accumulated members, but the source propagates
the exception and the accumulated items are lost. -/
theorem C1_counterexample :
    (guild cfg0 7 guildSrvErr).1 = .exn (.transport .timeout) ∧
      ¬ (guild cfg0 7 guildSrvErr).1 = .ok ["a"] := by
  exact ⟨by decide, by decide⟩

/-! ## Claim C2 -/

/-- C2: in each of the three aggregations, a page after the first that
contributes zero new items ends the loop immediately after that page —
exactly one more fetch is recorded, no further page is requested
regardless of how large `count` (resp. `max_items`) is, and the items
accumulated through the preceding pages are returned.  (In guild and
user the zero-item page still triggers one progress-callback invocation
before the break; in plays the loop breaks before the callback.) -/
theorem C2_zero_item_page_stops :
    (∀ (c : Config) (guild_id : Int) (server : GuildServer)
      (count fuel page : Nat) (members : List String) (tr : Trace) (pg : GuildPage),
      members.length < count → server page = .ok pg → pg.members = [] →
      guildLoop c guild_id server count (fuel + 1) page members tr =
        (.ok members,
          (tr.addFetch (guildDescPage c guild_id page)).addProgress
            (members.length, count))) ∧
    (∀ (c : Config) (name : String) (server : UserServer)
      (max_items fuel page : Nat) (buddies guilds : List String) (tr : Trace)
      (pg : UserPage),
      max buddies.length guilds.length < max_items → server page = .ok pg →
      pg.buddyItems = [] → pg.guildItems = [] →
      userLoop c name server max_items (fuel + 1) page buddies guilds tr =
        (.ok (buddies, guilds),
          (tr.addFetch (userDescPage c name page)).addProgress
            (max buddies.length guilds.length, max_items))) ∧
    (∀ (c : Config) (base : Params) (server : PlaysServer)
      (count fuel page : Nat) (items : List String) (tr : Trace) (pg : PlaysPage),
      items.length < count → server page = .ok pg → pg.plays = [] →
      playsLoop c base server count (fuel + 1) page items tr =
        (.ok items,
          tr.addFetch (playsDesc c (setParam base "page" (.int page))))) := by
  refine ⟨?_, ?_, ?_⟩
  · intro c guild_id server count fuel page members tr pg hlt h hemp
    simp only [guildLoop]
    rw [if_pos hlt, h]
    simp [hemp]
  · intro c name server max_items fuel page buddies guilds tr pg hlt h hb hg
    simp only [userLoop]
    rw [if_pos hlt, h]
    simp [hb, hg]
  · intro c base server count fuel page items tr pg hlt h hemp
    simp only [playsLoop]
    rw [if_pos hlt, h]
    simp [hemp]

/-- C2 witness: with one member accumulated out of an expected five, an
empty page 2 ends the concrete guild aggregation at once. -/
theorem C2_witness :
    (["a"].length < 5) ∧ guildSrvZero 2 = .ok ⟨some "g", 5, []⟩ ∧
      ((⟨some "g", 5, []⟩ : GuildPage).members = []) ∧
      guildLoop cfg0 7 guildSrvZero 5 3 2 ["a"] ⟨[], []⟩ =
        (.ok ["a"],
          (Trace.addFetch ⟨[], []⟩ (guildDescPage cfg0 7 2)).addProgress (1, 5)) :=
  ⟨by decide, rfl, rfl,
    C2_zero_item_page_stops.1 cfg0 7 guildSrvZero 5 2 2 ["a"] ⟨[], []⟩
      ⟨some "g", 5, []⟩ (by decide) rfl rfl⟩

/-! ## Claim C3 -/

/-- C3: the pagination loop terminates and fetches at most `count`
pages after the first.  Two facts per aggregation (guild and plays, the
cited loops): (a) a full run issues at most `1 + count` fetches, where
`count` is the expected total extracted from the first page — each
iteration of the loop that does not exit adds at least one item, and
the loop only runs while the accumulated count is below `count`;
(b) the loop's result does not depend on the fuel once the fuel exceeds
`count - accumulated`, i.e. the while-loop needs at most that many
further iterations on any server behaviour. -/
theorem C3_pagination_terminates :
    (∀ (c : Config) (guild_id : Int) (server : GuildServer) (pg : GuildPage)
      (s : String),
      server 1 = .ok pg → pg.nameAttr = some s →
      (guild c guild_id server).2.fetches.length ≤ 1 + pg.membersCount) ∧
    (∀ (c : Config) (guild_id : Int) (server : GuildServer)
      (count f g page : Nat) (members : List String) (tr : Trace),
      count - members.length < f → count - members.length < g →
      guildLoop c guild_id server count f page members tr =
        guildLoop c guild_id server count g page members tr) ∧
    (∀ (c : Config) (name : Option String) (game_id : Option PyGameId)
      (mnd mxd : PyDate) (server : PlaysServer) (ps : Params) (pg : PlaysPage)
      (count : Nat),
      strTruthy name = true → gidTruthy game_id = false →
      playsParams name game_id mnd mxd = .ok ps →
      server 1 = .ok pg → pg.total = some count →
      (plays c name game_id mnd mxd server).2.fetches.length ≤ 1 + count) ∧
    (∀ (c : Config) (base : Params) (server : PlaysServer)
      (count f g page : Nat) (items : List String) (tr : Trace),
      count - items.length < f → count - items.length < g →
      playsLoop c base server count f page items tr =
        playsLoop c base server count g page items tr) := by
  refine ⟨?_, guildLoop_fuel_irrel, ?_, playsLoop_fuel_irrel⟩
  · intro c guild_id server pg s h1 hname
    simp only [guild, h1, hname]
    refine le_trans (guildLoop_fetch_bound c guild_id server pg.membersCount _ 2
      pg.members _) ?_
    simp only [Trace.addProgress, List.length_cons, List.length_nil]
    omega
  · intro c name game_id mnd mxd server ps pg count hn hg hps h1 htotal
    simp only [plays, hn, hg, hps, h1, htotal]
    simp only [Bool.true_eq_false, not_false_eq_true, not_true_eq_false,
      false_and, and_false, if_false, ite_false]
    refine le_trans (playsLoop_fetch_bound c ps server count _ 2 pg.plays _) ?_
    simp only [Trace.addProgress, List.length_cons, List.length_nil]
    omega

/-- C3 witness: a concrete guild aggregation (three expected members,
one page with one member then a timeout server) issues at most four
fetches; and concrete fuels beyond the threshold agree. -/
theorem C3_witness :
    guildSrvErr 1 = .ok ⟨some "g", 3, ["a"]⟩ ∧
      ((⟨some "g", 3, ["a"]⟩ : GuildPage).nameAttr = some "g") ∧
      (guild cfg0 7 guildSrvErr).2.fetches.length ≤ 1 + 3 ∧
      ((3 : Nat) - (List.length ["a"]) < 5 ∧ (3 : Nat) - (List.length ["a"]) < 9 ∧
        guildLoop cfg0 7 guildSrvErr 3 5 2 ["a"] ⟨[], []⟩ =
          guildLoop cfg0 7 guildSrvErr 3 9 2 ["a"] ⟨[], []⟩) :=
  ⟨rfl, rfl,
    C3_pagination_terminates.1 cfg0 7 guildSrvErr ⟨some "g", 3, ["a"]⟩ "g" rfl rfl,
    by decide, by decide,
    C3_pagination_terminates.2.1 cfg0 7 guildSrvErr 3 5 9 2 ["a"] ⟨[], []⟩
      (by decide) (by decide)⟩

/-! ## Claim C4 -/

/-- Rebuilding the guild page dict equals overriding `page` on the
first-request dict. -/
theorem guildDescPage_eq_setParam (c : Config) (guild_id : Int) (p : Nat) :
    guildDescPage c guild_id p =
      { guildDesc1 c guild_id with
        params := setParam (guildDesc1 c guild_id).params "page" (.int p) } := by
  simp [guildDescPage, guildDesc1, setParam]

/-- C4 (amended): within one aggregation, every request after the first
goes to the same endpoint URL with the first request's query parameters
plus an added/updated `page` parameter.  Guild and plays later-page
requests also reuse the timeout, retries and retry_delay of the first
request; the user later-page requests reuse the URL, parameters and
timeout but *omit* the retries and retry_delay arguments, so the
transport defaults apply to them instead of the configured values. -/
theorem C4_descriptor_frame :
    (∀ (c : Config) (guild_id : Int) (server : GuildServer) (d : RequestDescriptor),
      d ∈ (guild c guild_id server).2.fetches →
      d = guildDesc1 c guild_id ∨
        ∃ p : Nat, 2 ≤ p ∧ d = { guildDesc1 c guild_id with
          params := setParam (guildDesc1 c guild_id).params "page" (.int p) }) ∧
    (∀ (c : Config) (name : Option String) (game_id : Option PyGameId)
      (mnd mxd : PyDate) (server : PlaysServer) (ps : Params) (d : RequestDescriptor),
      playsParams name game_id mnd mxd = .ok ps →
      d ∈ (plays c name game_id mnd mxd server).2.fetches →
      d = playsDesc c ps ∨
        ∃ p : Nat, 2 ≤ p ∧ d = { playsDesc c ps with
          params := setParam (playsDesc c ps).params "page" (.int p) }) ∧
    (∀ (c : Config) (name : String) (server : UserServer) (d : RequestDescriptor),
      d ∈ (user c name server).2.fetches →
      d = userDesc1 c name ∨
        ∃ p : Nat, 2 ≤ p ∧ d = { userDesc1 c name with
          params := setParam (userDesc1 c name).params "page" (.int p),
          retries := none, retryDelay := none }) := by
  refine ⟨?_, ?_, ?_⟩
  · intro c guild_id server d hd
    simp only [guild] at hd
    split at hd
    · simp at hd; exact .inl hd
    · simp at hd; exact .inl hd
    · split at hd
      · simp at hd; exact .inl hd
      · rcases guildLoop_fetch_mem c guild_id server _ _ _ _ _ _ hd with h | ⟨p, hp, hdp⟩
        · simp only [Trace.addProgress] at h
          simp at h
          exact .inl h
        · exact .inr ⟨p, hp, by rw [hdp, guildDescPage_eq_setParam]⟩
  · intro c name game_id mnd mxd server ps d hps hd
    simp only [plays] at hd
    split at hd
    · simp at hd
    · split at hd
      · simp at hd
      · split at hd
        · simp at hd
        · rename_i ps2 heq
          rw [hps] at heq
          injection heq with heq
          subst heq
          split at hd
          · simp at hd; exact .inl hd
          · simp at hd; exact .inl hd
          · split at hd
            · simp at hd; exact .inl hd
            · rcases playsLoop_fetch_mem c ps server _ _ _ _ _ _ hd with h | ⟨p, hp, hdp⟩
              · simp only [Trace.addProgress] at h
                simp at h
                exact .inl h
              · exact .inr ⟨p, hp, by rw [hdp]; rfl⟩
  · intro c name server d hd
    simp only [user] at hd
    split at hd
    · simp at hd
    · split at hd
      · simp at hd; exact .inl hd
      · simp at hd; exact .inl hd
      · split at hd
        · rcases userLoop_fetch_mem c name server _ _ _ _ _ _ _ hd with h | ⟨p, hp, hdp⟩
          · simp only [Trace.addProgress] at h
            simp at h
            exact .inl h
          · exact .inr ⟨p, hp, by rw [hdp]; rfl⟩
        · simp at hd; exact .inl hd

/-- User server for the C4 counterexample: two buddies expected, one
delivered per page. -/
def userSrvC4 : UserServer := fun p =>
  if p = 1 then .ok ⟨some "alice", some 1, some (2, ["b1"]), none⟩
  else .ok ⟨none, none, some (2, ["b2"]), none⟩

/-- C4 witness: the second request of the concrete user aggregation is
the first request with `page` set (and without retries/retry_delay). -/
theorem C4_witness :
    userDescPage cfg0 "alice" 2 ∈ (user cfg0 "alice" userSrvC4).2.fetches ∧
      (userDescPage cfg0 "alice" 2 = userDesc1 cfg0 "alice" ∨
        ∃ p : Nat, 2 ≤ p ∧ userDescPage cfg0 "alice" 2 = { userDesc1 cfg0 "alice" with
          params := setParam (userDesc1 cfg0 "alice").params "page" (.int p),
          retries := none, retryDelay := none }) :=
  ⟨by decide,
    C4_descriptor_frame.2.2 cfg0 "alice" userSrvC4 (userDescPage cfg0 "alice" 2)
      (by decide)⟩

/-- C4 counterexample: in the concrete user aggregation the first
request carries the configured retries (3) and retry_delay (5), while
the second request of the same aggregation carries neither — the claim
that every later request is issued with the same timeout, retries and
retry_delay settings as the first request is false on the user
aggregation. -/
theorem C4_counterexample :
    (user cfg0 "alice" userSrvC4).2.fetches.map RequestDescriptor.retries =
        [some 3, none] ∧
      (user cfg0 "alice" userSrvC4).2.fetches.map RequestDescriptor.retryDelay =
        [some 5, none] := by
  exact ⟨by decide, by decide⟩

/-! ## Claim C5 -/

/-- C5 (amended): when no page fetch fails, the guild and user
aggregations invoke the progress callback exactly once after every
fetched page, including the first and the final page (also after a page
contributing zero new items).  The plays aggregation invokes it exactly
once after every fetched page *except* a later page that contributed
zero new items: such a page ends the aggregation before the callback,
so at most one fetched page — the final, empty one — lacks an
invocation, and a later page with zero new plays leaves the callback
history unchanged. -/
theorem C5_progress_after_each_page :
    (∀ (c : Config) (guild_id : Int) (server : GuildServer) (pg : GuildPage)
      (s : String),
      (∀ p, ∃ q, server p = .ok q) → server 1 = .ok pg → pg.nameAttr = some s →
      (guild c guild_id server).2.progress.length =
        (guild c guild_id server).2.fetches.length) ∧
    (∀ (c : Config) (name : String) (server : UserServer) (pg : UserPage)
      (s : String) (n : Int),
      (∀ p, ∃ q, server p = .ok q) → name ≠ "" → server 1 = .ok pg →
      pg.nameAttr = some s → pg.idParse = some n →
      (user c name server).2.progress.length =
        (user c name server).2.fetches.length) ∧
    (∀ (c : Config) (name : Option String) (game_id : Option PyGameId)
      (mnd mxd : PyDate) (server : PlaysServer) (ps : Params) (pg : PlaysPage)
      (count : Nat),
      (∀ p, ∃ q, server p = .ok q) →
      strTruthy name = true → gidTruthy game_id = false →
      playsParams name game_id mnd mxd = .ok ps →
      server 1 = .ok pg → pg.total = some count →
      (plays c name game_id mnd mxd server).2.progress.length ≤
          (plays c name game_id mnd mxd server).2.fetches.length ∧
        (plays c name game_id mnd mxd server).2.fetches.length ≤
          (plays c name game_id mnd mxd server).2.progress.length + 1) ∧
    (∀ (c : Config) (base : Params) (server : PlaysServer)
      (count fuel page : Nat) (items : List String) (tr : Trace) (pg : PlaysPage),
      items.length < count → server page = .ok pg → pg.plays = [] →
      (playsLoop c base server count (fuel + 1) page items tr).2.progress =
        tr.progress) := by
  refine ⟨?_, ?_, ?_, ?_⟩
  · intro c guild_id server pg s hok h1 hname
    simp only [guild, h1, hname]
    have := guildLoop_progress_count c guild_id server pg.membersCount hok
      (pg.membersCount + 1) 2 pg.members
      ((⟨[guildDesc1 c guild_id], []⟩ : Trace).addProgress
        (pg.members.length, pg.membersCount))
    simp only [Trace.addProgress, List.length_cons, List.length_nil,
      List.length_append] at this ⊢
    omega
  · intro c name server pg s n hok hname h1 hna hid
    unfold user
    rw [if_neg hname]
    simp only [h1, hna, hid]
    have := userLoop_progress_count c name server
      (max pg.totalBuddies pg.totalGuilds) hok
      (2 * max pg.totalBuddies pg.totalGuilds + 1) 2
      pg.firstBuddies pg.firstGuilds
      ((⟨[userDesc1 c name], []⟩ : Trace).addProgress
        (max pg.firstBuddies.length pg.firstGuilds.length,
          max pg.totalBuddies pg.totalGuilds))
    simp only [Trace.addProgress, List.length_cons, List.length_nil,
      List.nil_append] at this ⊢
    omega
  · intro c name game_id mnd mxd server ps pg count hok hn hg hps h1 htotal
    simp only [plays, hn, hg, hps, h1, htotal]
    simp only [Bool.true_eq_false, Bool.false_eq_true, not_false_eq_true,
      not_true_eq_false, false_and, and_false, true_and, and_true,
      if_false, ite_false]
    have := playsLoop_progress_count c ps server count hok (count + 1) 2 pg.plays
      ((⟨[playsDesc c ps], []⟩ : Trace).addProgress (pg.plays.length, count))
    simp only [Trace.addProgress, List.length_cons, List.length_nil,
      List.nil_append] at this ⊢
    omega
  · intro c base server count fuel page items tr pg hlt h hemp
    simp only [playsLoop]
    rw [if_pos hlt, h]
    simp [hemp, Trace.addFetch]

/-- Plays server for the C5 scenario: three plays expected, one play on
page 1, none on page 2. -/
def playsSrvC5 : PlaysServer := fun p =>
  if p = 1 then .ok ⟨some 3, ["p1"]⟩ else .ok ⟨some 3, []⟩

/-- C5 witness: the concrete plays aggregation of `playsSrvC5`
satisfies the amended per-page callback accounting, and a concrete
zero-play later page leaves the callback history unchanged. -/
theorem C5_witness :
    ((plays cfg0 (some "u") none .pyNone .pyNone playsSrvC5).2.progress.length ≤
        (plays cfg0 (some "u") none .pyNone .pyNone playsSrvC5).2.fetches.length ∧
      (plays cfg0 (some "u") none .pyNone .pyNone playsSrvC5).2.fetches.length ≤
        (plays cfg0 (some "u") none .pyNone .pyNone playsSrvC5).2.progress.length + 1) ∧
      (playsLoop cfg0 [("username", .str "u")] playsSrvC5 3 2 2 ["p1"]
        ⟨[], [(1, 3)]⟩).2.progress = [(1, 3)] :=
  ⟨C5_progress_after_each_page.2.2.1 cfg0 (some "u") none .pyNone .pyNone
      playsSrvC5 [("username", .str "u")] ⟨some 3, ["p1"]⟩ 3
      (fun p => by by_cases hp : p = 1 <;> simp [playsSrvC5, hp])
      rfl rfl rfl rfl rfl,
    C5_progress_after_each_page.2.2.2 cfg0 [("username", .str "u")] playsSrvC5
      3 1 2 ["p1"] ⟨[], [(1, 3)]⟩ ⟨some 3, []⟩ (by decide) rfl rfl⟩

/-- C5 counterexample: in the concrete plays aggregation two pages are
fetched but the progress callback runs only once (after page 1) — the
final page, which contributed zero new plays, gets no callback, contrary
to the claim that the callback is invoked after every fetched page. -/
theorem C5_counterexample :
    (plays cfg0 (some "u") none .pyNone .pyNone playsSrvC5).2.fetches.length = 2 ∧
      (plays cfg0 (some "u") none .pyNone .pyNone playsSrvC5).2.progress = [(1, 3)] := by
  exact ⟨by decide, by decide⟩

/-! ## Claim C6 -/

/-- C6: across the successive progress-callback invocations of one
aggregation (guild, user or plays), the first argument — the number of
items accumulated so far — never decreases from one invocation to the
next. -/
theorem C6_progress_monotone :
    (∀ (c : Config) (guild_id : Int) (server : GuildServer),
      monoFst (guild c guild_id server).2.progress) ∧
    (∀ (c : Config) (name : String) (server : UserServer),
      monoFst (user c name server).2.progress) ∧
    (∀ (c : Config) (name : Option String) (game_id : Option PyGameId)
      (mnd mxd : PyDate) (server : PlaysServer),
      monoFst (plays c name game_id mnd mxd server).2.progress) := by
  refine ⟨?_, ?_, ?_⟩
  · intro c guild_id server
    simp only [guild]
    split
    · exact List.chain'_nil
    · exact List.chain'_nil
    · split
      · exact List.chain'_nil
      · refine guildLoop_mono c guild_id server _ _ _ _ _ ?_ ?_
        · exact List.chain'_singleton _
        · intro x hx
          simp only [Trace.addProgress, List.nil_append, List.getLast?_singleton,
            Option.mem_def, Option.some.injEq] at hx
          subst hx
          exact le_refl _
  · intro c name server
    simp only [user]
    split
    · exact List.chain'_nil
    · split
      · exact List.chain'_nil
      · exact List.chain'_nil
      · split
        · refine userLoop_mono c name server _ _ _ _ _ _ ?_ ?_
          · exact List.chain'_singleton _
          · intro x hx
            simp only [Trace.addProgress, List.nil_append,
              List.getLast?_singleton, Option.mem_def, Option.some.injEq] at hx
            subst hx
            exact le_refl _
        · exact List.chain'_nil
  · intro c name game_id mnd mxd server
    simp only [plays]
    split
    · exact List.chain'_nil
    · split
      · exact List.chain'_nil
      · split
        · exact List.chain'_nil
        · split
          · exact List.chain'_nil
          · exact List.chain'_nil
          · split
            · exact List.chain'_nil
            · refine playsLoop_mono c _ server _ _ _ _ _ ?_ ?_
              · exact List.chain'_singleton _
              · intro x hx
                simp only [Trace.addProgress, List.nil_append,
                  List.getLast?_singleton, Option.mem_def, Option.some.injEq] at hx
                subst hx
                exact le_refl _

/-! ## Claim C7 -/

/-- C7: for each public retrieval operation, a response body that is
not parseable XML (the transport's `BoardGameGeekAPINonXMLError`) on
the initial request makes the operation return `None` — the
"no such resource" outcome — instead of raising. -/
theorem C7_nonxml_yields_none :
    (∀ (c : Config) (guild_id : Int) (server : GuildServer),
      server 1 = .error .nonXml → (guild c guild_id server).1 = .notFound) ∧
    (∀ (c : Config) (name : String) (server : UserServer),
      name ≠ "" → server 1 = .error .nonXml → (user c name server).1 = .notFound) ∧
    (∀ (c : Config) (name : Option String) (game_id : Option PyGameId)
      (mnd mxd : PyDate) (server : PlaysServer) (ps : Params),
      strTruthy name = true → gidTruthy game_id = false →
      playsParams name game_id mnd mxd = .ok ps →
      server 1 = .error .nonXml →
      (plays c name game_id mnd mxd server).1 = .notFound) ∧
    (∀ (c : Config) (item_type : String) (server : Nat → Except TransportError HotPage),
      item_type ∈ HOT_ITEM_CHOICES → server 1 = .error .nonXml →
      (hot_items c item_type server).1 = .notFound) ∧
    (∀ (c : Config) (user_name : String)
      (server : Nat → Except TransportError CollectionPage),
      user_name ≠ "" → server 1 = .error .nonXml →
      (collection c user_name server).1 = .notFound) ∧
    (∀ (c : Config) (query : String) (search_type : List String) (exact : Bool)
      (server : SearchServer),
      query ≠ "" →
      (∀ s ∈ search_type, s ∈ VALID_SEARCH_TYPES) →
      server 1 = .error .nonXml →
      (search c query search_type exact server).1 = .notFound) ∧
    (∀ (c : Config) (game_id : Int) (server : Nat → Except TransportError GamePage),
      server 1 = .error .nonXml → (game c game_id server).1 = .notFound) := by
  refine ⟨?_, ?_, ?_, ?_, ?_, ?_, ?_⟩
  · intro c guild_id server h
    simp [guild, h]
  · intro c name server hname h
    simp [user, hname, h]
  · intro c name game_id mnd mxd server ps hn hg hps h
    simp [plays, hn, hg, hps, h]
  · intro c item_type server ht h
    simp [hot_items, ht, h]
  · intro c user_name server hu h
    simp [collection, hu, h]
  · intro c query search_type exact server hq hst h
    unfold search
    rw [if_neg hq, if_neg (by push_neg; exact hst)]
    simp [h]
  · intro c game_id server h
    simp [game, h]

/-- C7 witness: each of the seven operations, run against a server that
returns only non-XML bodies, yields `None`. -/
theorem C7_witness :
    (guild cfg0 7 (fun _ => .error .nonXml)).1 = .notFound ∧
      (("alice" : String) ≠ "" ∧
        (user cfg0 "alice" (fun _ => .error .nonXml)).1 = .notFound) ∧
      (plays cfg0 (some "u") none .pyNone .pyNone (fun _ => .error .nonXml)).1 =
        .notFound ∧
      (hot_items cfg0 "boardgame" (fun _ => .error .nonXml)).1 = .notFound ∧
      (collection cfg0 "alice" (fun _ => .error .nonXml)).1 = .notFound ∧
      (search cfg0 "carcassonne" ["boardgame"] true (fun _ => .error .nonXml)).1 =
        .notFound ∧
      (game cfg0 13 (fun _ => .error .nonXml)).1 = .notFound :=
  ⟨C7_nonxml_yields_none.1 cfg0 7 _ rfl,
    ⟨by decide, C7_nonxml_yields_none.2.1 cfg0 "alice" _ (by decide) rfl⟩,
    C7_nonxml_yields_none.2.2.1 cfg0 (some "u") none .pyNone .pyNone _
      [("username", .str "u")] rfl rfl rfl rfl,
    C7_nonxml_yields_none.2.2.2.1 cfg0 "boardgame" _ (by decide) rfl,
    C7_nonxml_yields_none.2.2.2.2.1 cfg0 "alice" _ (by decide) rfl,
    C7_nonxml_yields_none.2.2.2.2.2.1 cfg0 "carcassonne" ["boardgame"] true _
      (by decide) (by decide) rfl,
    C7_nonxml_yields_none.2.2.2.2.2.2 cfg0 13 _ rfl⟩

/-! ## Claim C8 -/

/-- C8 (amended): malformed caller-supplied arguments — an unrecognized
`choose` in `get_game_id`, neither or both of name/game_id in `plays`,
a game_id that `int()` cannot convert, a *truthy* min_date/max_date
that is not a date object, or an unrecognized hot-item type — raise
`BoardGameGeekError` immediately, before any network request is issued
(the returned trace records no fetch, so the failure is never retried).
A *falsy* non-date min_date/max_date (such as `0` or `""`), however, is
treated exactly like an absent date by the `if min_date:` truthiness
test: it raises nothing and the request proceeds. -/
theorem C8_invalid_args_raise :
    (∀ (c : Config) (name game_type choose : String) (server : SearchServer)
      (ranks : Int → Option Int),
      choose ∉ (["first", "recent", "best-rank"] : List String) →
      get_game_id c name game_type choose server ranks =
        (.exn (.bggError ("invalid value for parameter choose: " ++ choose)),
          ⟨[], []⟩)) ∧
    (∀ (c : Config) (name : Option String) (game_id : Option PyGameId)
      (mnd mxd : PyDate) (server : PlaysServer),
      strTruthy name = false → gidTruthy game_id = false →
      plays c name game_id mnd mxd server =
        (.exn (.bggError "no user name specified"), ⟨[], []⟩)) ∧
    (∀ (c : Config) (name : Option String) (game_id : Option PyGameId)
      (mnd mxd : PyDate) (server : PlaysServer),
      strTruthy name = true → gidTruthy game_id = true →
      plays c name game_id mnd mxd server =
        (.exn (.bggError "cannot retrieve by user and by game at the same time"),
          ⟨[], []⟩)) ∧
    (∀ (c : Config) (name : Option String) (mnd mxd : PyDate) (server : PlaysServer),
      strTruthy name = false →
      plays c name (some .junk) mnd mxd server =
        (.exn (.bggError "invalid game id"), ⟨[], []⟩)) ∧
    (∀ (c : Config) (name : Option String) (game_id : Option PyGameId)
      (mxd : PyDate) (server : PlaysServer),
      strTruthy name = true → gidTruthy game_id = false →
      plays c name game_id .truthyNonDate mxd server =
        (.exn (.bggError "mindate must be a datetime.date object"), ⟨[], []⟩)) ∧
    (∀ (c : Config) (name : Option String) (game_id : Option PyGameId)
      (server : PlaysServer),
      strTruthy name = true → gidTruthy game_id = false →
      plays c name game_id .pyNone .truthyNonDate server =
        (.exn (.bggError "maxdate must be a datetime.date object"), ⟨[], []⟩)) ∧
    (∀ (c : Config) (item_type : String)
      (server : Nat → Except TransportError HotPage),
      item_type ∉ HOT_ITEM_CHOICES →
      hot_items c item_type server =
        (.exn (.bggError "invalid type specified"), ⟨[], []⟩)) ∧
    (∀ (c : Config) (name : Option String) (game_id : Option PyGameId)
      (mxd : PyDate) (server : PlaysServer),
      plays c name game_id .falsyNonDate mxd server =
        plays c name game_id .pyNone mxd server) := by
  refine ⟨?_, ?_, ?_, ?_, ?_, ?_, ?_, ?_⟩
  · intro c name game_type choose server ranks hc
    unfold get_game_id
    rw [if_pos hc]
  · intro c name game_id mnd mxd server hn hg
    simp [plays, hn, hg]
  · intro c name game_id mnd mxd server hn hg
    simp [plays, hn, hg]
  · intro c name mnd mxd server hn
    simp [plays, playsParams, hn, gidTruthy, PyGameId.truthy, PyGameId.toInt]
  · intro c name game_id mxd server hn hg
    simp [plays, playsParams, hn, hg, PyDate.truthy, PyDate.isoformat]
  · intro c name game_id server hn hg
    simp [plays, playsParams, hn, hg, PyDate.truthy, PyDate.isoformat]
  · intro c item_type server ht
    unfold hot_items
    rw [if_pos ht]
  · intro c name game_id mxd server
    rfl

/-- Plays server for the C8 scenario. -/
def playsSrvC8 : PlaysServer := fun _ => .ok ⟨some 1, ["p"]⟩

/-- C8 witness: each validation failure at a concrete input. -/
theorem C8_witness :
    (("bogus" : String) ∉ (["first", "recent", "best-rank"] : List String) ∧
      get_game_id cfg0 "x" "boardgame" "bogus" (fun _ => .error .nonXml)
          (fun _ => none) =
        (.exn (.bggError ("invalid value for parameter choose: " ++ "bogus")),
          ⟨[], []⟩)) ∧
    (strTruthy (some "") = false ∧ gidTruthy (none : Option PyGameId) = false ∧
      plays cfg0 (some "") none .pyNone .pyNone playsSrvC8 =
        (.exn (.bggError "no user name specified"), ⟨[], []⟩)) ∧
    (strTruthy (some "u") = true ∧ gidTruthy (some (.gid 3)) = true ∧
      plays cfg0 (some "u") (some (.gid 3)) .pyNone .pyNone playsSrvC8 =
        (.exn (.bggError "cannot retrieve by user and by game at the same time"),
          ⟨[], []⟩)) ∧
    (strTruthy (none : Option String) = false ∧
      plays cfg0 none (some .junk) .pyNone .pyNone playsSrvC8 =
        (.exn (.bggError "invalid game id"), ⟨[], []⟩)) ∧
    (plays cfg0 (some "u") none .truthyNonDate .pyNone playsSrvC8 =
      (.exn (.bggError "mindate must be a datetime.date object"), ⟨[], []⟩)) ∧
    (plays cfg0 (some "u") none .pyNone .truthyNonDate playsSrvC8 =
      (.exn (.bggError "maxdate must be a datetime.date object"), ⟨[], []⟩)) ∧
    (("rpgs" : String) ∉ HOT_ITEM_CHOICES ∧
      hot_items cfg0 "rpgs" (fun _ => .error .nonXml) =
        (.exn (.bggError "invalid type specified"), ⟨[], []⟩)) ∧
    (plays cfg0 (some "u") none .falsyNonDate .pyNone playsSrvC8 =
      plays cfg0 (some "u") none .pyNone .pyNone playsSrvC8) :=
  ⟨⟨by decide, C8_invalid_args_raise.1 cfg0 "x" "boardgame" "bogus" _ _ (by decide)⟩,
    ⟨rfl, rfl, C8_invalid_args_raise.2.1 cfg0 (some "") none .pyNone .pyNone
      playsSrvC8 rfl rfl⟩,
    ⟨rfl, rfl, C8_invalid_args_raise.2.2.1 cfg0 (some "u") (some (.gid 3)) .pyNone
      .pyNone playsSrvC8 rfl rfl⟩,
    ⟨rfl, C8_invalid_args_raise.2.2.2.1 cfg0 none .pyNone .pyNone playsSrvC8 rfl⟩,
    C8_invalid_args_raise.2.2.2.2.1 cfg0 (some "u") none .pyNone playsSrvC8 rfl rfl,
    C8_invalid_args_raise.2.2.2.2.2.1 cfg0 (some "u") none playsSrvC8 rfl rfl,
    ⟨by decide, C8_invalid_args_raise.2.2.2.2.2.2.1 cfg0 "rpgs" _ (by decide)⟩,
    C8_invalid_args_raise.2.2.2.2.2.2.2 cfg0 (some "u") none .pyNone playsSrvC8⟩

/-- C8 counterexample: `plays` called with `min_date = 0` — a value
that is not a `datetime.date` object but is falsy — raises nothing:
the call succeeds and a network request is issued, contrary to the
claim that a non-date min_date always raises `BoardGameGeekError`
before any request. -/
theorem C8_counterexample :
    (plays cfg0 (some "u") none .falsyNonDate .pyNone playsSrvC8).1 = .ok ["p"] ∧
      (plays cfg0 (some "u") none .falsyNonDate .pyNone playsSrvC8).2.fetches.length
        = 1 := by
  exact ⟨by decide, by decide⟩

/-! ## Claim C9 -/

/-- C9 (amended): when the first page reports an expected total of 0,
the aggregation issues exactly one fetch (never requesting page 2) and
invokes the progress callback exactly once — with arguments
`(k, 0)` where `k` is the number of items present on the first page,
which are returned.  In particular, when the first page carries no
items this is `(0, 0)` and an empty result; but items present on an
inconsistent first page are kept and counted. -/
theorem C9_zero_total_one_fetch :
    (∀ (c : Config) (guild_id : Int) (server : GuildServer) (pg : GuildPage)
      (s : String),
      server 1 = .ok pg → pg.nameAttr = some s → pg.membersCount = 0 →
      guild c guild_id server =
        (.ok pg.members,
          ⟨[guildDesc1 c guild_id], [(pg.members.length, 0)]⟩)) ∧
    (∀ (c : Config) (name : Option String) (game_id : Option PyGameId)
      (mnd mxd : PyDate) (server : PlaysServer) (ps : Params) (pg : PlaysPage),
      strTruthy name = true → gidTruthy game_id = false →
      playsParams name game_id mnd mxd = .ok ps →
      server 1 = .ok pg → pg.total = some 0 →
      plays c name game_id mnd mxd server =
        (.ok pg.plays, ⟨[playsDesc c ps], [(pg.plays.length, 0)]⟩)) := by
  constructor
  · intro c guild_id server pg s h1 hname hcount
    simp only [guild, h1, hname, hcount]
    simp only [guildLoop]
    rw [if_neg (Nat.not_lt_zero _)]
    simp [Trace.addProgress]
  · intro c name game_id mnd mxd server ps pg hn hg hps h1 htotal
    simp only [plays, hn, hg, hps, h1, htotal]
    simp only [Bool.true_eq_false, Bool.false_eq_true, not_false_eq_true,
      not_true_eq_false, false_and, and_false, true_and, and_true,
      if_false, ite_false]
    simp only [playsLoop]
    rw [if_neg (Nat.not_lt_zero _)]
    simp [Trace.addProgress]

/-- Guild server whose single page reports total 0 with no members (the
consistent case of the C9 scenario). -/
def guildSrvC9w : GuildServer := fun _ => .ok ⟨some "g", 0, []⟩

/-- C9 witness: expected total 0 with an empty first page gives exactly
one fetch, one `(0, 0)` progress call, and an empty result. -/
theorem C9_witness :
    guildSrvC9w 1 = .ok ⟨some "g", 0, []⟩ ∧
      ((⟨some "g", 0, []⟩ : GuildPage).nameAttr = some "g") ∧
      ((⟨some "g", 0, []⟩ : GuildPage).membersCount = 0) ∧
      guild cfg0 1 guildSrvC9w = (.ok [], ⟨[guildDesc1 cfg0 1], [(0, 0)]⟩) :=
  ⟨rfl, rfl, rfl, C9_zero_total_one_fetch.1 cfg0 1 guildSrvC9w ⟨some "g", 0, []⟩
    "g" rfl rfl rfl⟩

/-- Guild server whose single page reports total 0 yet carries one
member. -/
def guildSrvC9 : GuildServer := fun _ => .ok ⟨some "g", 0, ["m"]⟩

/-- C9 counterexample: a first page reporting total 0 while carrying a
member makes the aggregation return that one member and invoke the
progress callback with `(1, 0)` — not the `(0, 0)` and empty result the
claim promises for every first page reporting total 0. -/
theorem C9_counterexample :
    (guild cfg0 1 guildSrvC9).1 = .ok ["m"] ∧
      (guild cfg0 1 guildSrvC9).2.progress = [(1, 0)] ∧
      (guild cfg0 1 guildSrvC9).2.fetches.length = 1 := by
  exact ⟨by decide, by decide, by decide⟩

/-! ## Claim C10 -/

/-- C10: a well-formed XML response lacking the identifying attribute
of the requested record — a guild response whose root has no `name`
attribute, or a user response whose `name`/`id` attributes are missing
or whose `id` does not parse as an integer — makes `guild` and `user`
return `None` (no exception), the same outcome as a missing
resource. -/
theorem C10_missing_identity_yields_none :
    (∀ (c : Config) (guild_id : Int) (server : GuildServer) (pg : GuildPage),
      server 1 = .ok pg → pg.nameAttr = none →
      guild c guild_id server = (.notFound, ⟨[guildDesc1 c guild_id], []⟩)) ∧
    (∀ (c : Config) (name : String) (server : UserServer) (pg : UserPage),
      name ≠ "" → server 1 = .ok pg →
      pg.nameAttr = none ∨ pg.idParse = none →
      (user c name server).1 = .notFound) := by
  constructor
  · intro c guild_id server pg h1 hname
    simp [guild, h1, hname]
  · intro c name server pg hname h1 hd
    unfold user
    rw [if_neg hname]
    simp only [h1]
    rcases hd with hna | hid
    · simp [hna]
    · cases hna2 : pg.nameAttr <;> simp [hna2, hid]

/-- User server whose page has a name but an id that does not parse. -/
def userSrvNoId : UserServer := fun _ => .ok ⟨some "alice", none, none, none⟩

/-- C10 witness: a guild page without a `name` attribute and a user
page without a parsable `id` both yield `None`. -/
theorem C10_witness :
    ((fun _ => .ok ⟨none, 5, ["m"]⟩ : GuildServer) 1 = .ok ⟨none, 5, ["m"]⟩) ∧
      ((⟨none, 5, ["m"]⟩ : GuildPage).nameAttr = none) ∧
      guild cfg0 7 (fun _ => .ok ⟨none, 5, ["m"]⟩) =
        (.notFound, ⟨[guildDesc1 cfg0 7], []⟩) ∧
      (("alice" : String) ≠ "" ∧ userSrvNoId 1 = .ok ⟨some "alice", none, none, none⟩ ∧
        (user cfg0 "alice" userSrvNoId).1 = .notFound) :=
  ⟨rfl, rfl,
    C10_missing_identity_yields_none.1 cfg0 7 (fun _ => .ok ⟨none, 5, ["m"]⟩)
      ⟨none, 5, ["m"]⟩ rfl rfl,
    by decide, rfl,
    C10_missing_identity_yields_none.2 cfg0 "alice" userSrvNoId
      ⟨some "alice", none, none, none⟩ (by decide) rfl (.inr rfl)⟩

end BGGApi
